import Mathlib

/-!
Verification of the museum-collection term-pair batch fetcher
(code/collectData.py and code/termsFromRawData.py).

The Python code is shallowly embedded: the network, the JSON layer and the
filesystem are oracles passed in as explicit arguments; Python exceptions are
values of explicit error types; the per-object fetch loop is structural
recursion over the object-id list.
-/

/-- An object identifier.  The code stringifies ids before building the
per-object URL, so ids are modelled as strings throughout. -/
abbrev ObjectID := String

/-- A term tag attached to an object. -/
abbrev Term := String

/-- Exceptions that can escape the fetch/extraction layer:
transport failures and JSON decode failures re-raised by get_api_data, and the
KeyError / TypeError raised while reading data["tags"] and tag["term"]. -/
inductive ApiError
  | transport
  | decode
  | keyError
  | typeError
deriving DecidableEq

/-- One element of the "tags" array of a per-object response: either a tag
record carrying a "term" field or one lacking it (reading it raises KeyError). -/
inductive TagEntry
  | noTerm
  | term (t : Term)
deriving DecidableEq

/-- The "tags" member of a per-object JSON body: the key may be missing
(data["tags"] raises KeyError), may hold a non-iterable value such as null
(iterating raises TypeError), or may hold an array of tag entries. -/
inductive TagsField
  | missing
  | notAList
  | tags (l : List TagEntry)
deriving DecidableEq

/-- A co-occurrence pair as built by get_terms_from_endpoint:
the dict {"Source": pair[0], "Target": pair[1]}. -/
structure TermPair where
  Source : Term
  Target : Term
deriving DecidableEq

/-- The network/JSON oracle: what GET {object_endpoint}/{id} plus JSON decoding
delivers for each object id (get_api_data raising is the error case). -/
abbrev Fetch := ObjectID → Except ApiError TagsField

/-- The list comprehension [tag["term"] for tag in data]: left to right, the
first tag record lacking "term" raises KeyError. -/
def extractTermList : List TagEntry → Except ApiError (List Term)
  | [] => .ok []
  | .noTerm :: _ => .error .keyError
  | .term t :: rest =>
    match extractTermList rest with
    | .error e => .error e
    | .ok ts => .ok (t :: ts)

/-- Reading data["tags"] and then the term of every tag entry. -/
def extractTerms : TagsField → Except ApiError (List Term)
  | .missing => .error .keyError
  | .notAList => .error .typeError
  | .tags l => extractTermList l

/-- itertools.combinations(l, 2) in its documented order: pairs of elements at
index i < j, enumerated lexicographically by position. -/
def combinations2 {α : Type} : List α → List (α × α)
  | [] => []
  | x :: xs => (xs.map fun y => (x, y)) ++ combinations2 xs

/-- [{"Source": pair[0], "Target": pair[1]} for pair in combinations(terms, 2)]. -/
def pairsOf (terms : List Term) : List TermPair :=
  (combinations2 terms).map fun p => { Source := p.1, Target := p.2 }

/-- The value returned by get_terms_from_endpoint on the non-raising paths:
either the full term list or the Source/Target pair dicts. -/
inductive TermData
  | full (terms : List Term)
  | pairs (ps : List TermPair)
deriving DecidableEq

/-- get_terms_from_endpoint.  Python falls off the end of the function when
return_full_list is false and fewer than two terms were extracted, implicitly
returning None: that path is Option.none here.  The KeyError/TypeError handlers
only print and re-raise, so errors propagate unchanged. -/
def get_terms_from_endpoint (fetch : Fetch) (objectID : ObjectID)
    (return_full_list : Bool) : Except ApiError (Option TermData) :=
  match fetch objectID with
  | .error e => .error e
  | .ok data =>
    match extractTerms data with
    | .error e => .error e
    | .ok terms =>
      if return_full_list then .ok (some (.full terms))
      else if 1 < terms.length then .ok (some (.pairs (pairsOf terms)))
      else .ok none

/-- An element of the heterogeneous Python list returned by
process_object_terms: a raw term string in full-list mode, a Source/Target
pair dict in pairs mode. -/
inductive Entry
  | term (t : Term)
  | pair (p : TermPair)
deriving DecidableEq

/-- The Python value (a list) underlying a TermData result. -/
def termDataEntries : TermData → List Entry
  | .full ts => ts.map Entry.term
  | .pairs ps => ps.map Entry.pair

/-- process_object_terms: every exception is caught and turned into ([], False);
a falsy result (None from the short pairs path, or an empty term list) is also
turned into ([], False); a non-empty result is returned with True. -/
def process_object_terms (fetch : Fetch) (objectID : ObjectID)
    (return_full_list : Bool) : List Entry × Bool :=
  match get_terms_from_endpoint fetch objectID return_full_list with
  | .error _ => ([], false)
  | .ok none => ([], false)
  | .ok (some td) =>
    let object_terms := termDataEntries td
    if object_terms.isEmpty then ([], false) else (object_terms, true)

/-- The terms_dict mutated by get_terms_from_collection: a Python dict in
insertion order. -/
abbrev TermsDict := List (ObjectID × List Entry)

def dictKeys (d : TermsDict) : List ObjectID := d.map Prod.fst

/-- terms_dict[objectID] = object_terms: update in place if the key exists,
otherwise append preserving insertion order. -/
def dictInsert (d : TermsDict) (k : ObjectID) (v : List Entry) : TermsDict :=
  if k ∈ dictKeys d then d.map fun kv => if kv.1 = k then (k, v) else kv
  else d ++ [(k, v)]

/-- The for-loop body of get_terms_from_collection over the remaining
object ids, carrying terms_dict and none_count. -/
def collectLoop (fetch : Fetch) :
    TermsDict → Nat → List ObjectID → TermsDict × Nat
  | terms_dict, none_count, [] => (terms_dict, none_count)
  | terms_dict, none_count, objectID :: rest =>
    let r := process_object_terms fetch objectID true
    if r.2 then collectLoop fetch (dictInsert terms_dict objectID r.1) none_count rest
    else collectLoop fetch terms_dict (none_count + 1) rest

/-- The accumulation phase of get_terms_from_collection (raw mode). -/
def get_terms_from_collection_loop (fetch : Fetch) (objectIDs : List ObjectID) :
    TermsDict × Nat :=
  collectLoop fetch [] 0 objectIDs

/-- The for-loop body of get_terms_pairs over the remaining object ids,
carrying the flattened terms list and none_count. -/
def pairsLoop (fetch : Fetch) (return_full_list : Bool) :
    List Entry → Nat → List ObjectID → List Entry × Nat
  | terms, none_count, [] => (terms, none_count)
  | terms, none_count, objectID :: rest =>
    let r := process_object_terms fetch objectID return_full_list
    if r.2 then pairsLoop fetch return_full_list (terms ++ r.1) none_count rest
    else pairsLoop fetch return_full_list terms (none_count + 1) rest

/-- The accumulation phase of get_terms_pairs. -/
def get_terms_pairs_loop (fetch : Fetch) (return_full_list : Bool)
    (objectIDs : List ObjectID) : List Entry × Nat :=
  pairsLoop fetch return_full_list [] 0 objectIDs

/-- The entries one object contributes to the running result of the batch
(empty when it is recorded as failed). -/
def objEntries (fetch : Fetch) (return_full_list : Bool) (id : ObjectID) :
    List Entry :=
  let r := process_object_terms fetch id return_full_list
  if r.2 then r.1 else []

/-- Whether one object is recorded as failed by the batch loop. -/
def objFails (fetch : Fetch) (return_full_list : Bool) (id : ObjectID) : Bool :=
  !(process_object_terms fetch id return_full_list).2

/-- Number of objects the loop classifies as successful. -/
def successCount (fetch : Fetch) (return_full_list : Bool)
    (ids : List ObjectID) : Nat :=
  ids.countP fun id => (process_object_terms fetch id return_full_list).2

/-- The terms_dict entry one object contributes in raw mode, if successful. -/
def rawEntry (fetch : Fetch) (id : ObjectID) : Option (ObjectID × List Entry) :=
  let r := process_object_terms fetch id true
  if r.2 then some (id, r.1) else none

theorem pairsLoop_fst (fetch : Fetch) (b : Bool) (ids : List ObjectID) :
    ∀ acc cnt, (pairsLoop fetch b acc cnt ids).1 = acc ++ ids.flatMap (objEntries fetch b) := by
  induction ids with
  | nil => intro acc cnt; simp [pairsLoop]
  | cons id rest ih =>
    intro acc cnt
    by_cases h : (process_object_terms fetch id b).2
    · simp [pairsLoop, h, ih, objEntries]
    · simp [pairsLoop, h, ih, objEntries]

theorem pairsLoop_snd (fetch : Fetch) (b : Bool) (ids : List ObjectID) :
    ∀ acc cnt, (pairsLoop fetch b acc cnt ids).2 = cnt + ids.countP (objFails fetch b) := by
  induction ids with
  | nil => intro acc cnt; simp [pairsLoop]
  | cons id rest ih =>
    intro acc cnt
    by_cases h : (process_object_terms fetch id b).2
    · simp [pairsLoop, h, ih, List.countP_cons, objFails]
    · simp [pairsLoop, h, ih, List.countP_cons, objFails]
      omega

theorem collectLoop_snd (fetch : Fetch) (ids : List ObjectID) :
    ∀ acc cnt, (collectLoop fetch acc cnt ids).2 = cnt + ids.countP (objFails fetch true) := by
  induction ids with
  | nil => intro acc cnt; simp [collectLoop]
  | cons id rest ih =>
    intro acc cnt
    by_cases h : (process_object_terms fetch id true).2
    · simp [collectLoop, h, ih, List.countP_cons, objFails]
    · simp [collectLoop, h, ih, List.countP_cons, objFails]
      omega

theorem dictInsert_of_not_mem (d : TermsDict) (k : ObjectID) (v : List Entry)
    (h : k ∉ dictKeys d) : dictInsert d k v = d ++ [(k, v)] := by
  simp [dictInsert, h]

theorem collectLoop_fst (fetch : Fetch) (ids : List ObjectID) :
    ∀ acc cnt, ids.Nodup → (∀ id ∈ ids, id ∉ dictKeys acc) →
      (collectLoop fetch acc cnt ids).1 = acc ++ ids.filterMap (rawEntry fetch) := by
  induction ids with
  | nil => intro acc cnt _ _; simp [collectLoop]
  | cons id rest ih =>
    intro acc cnt hnd hdisj
    have hid : id ∉ dictKeys acc := hdisj id (by simp)
    have hrest : rest.Nodup := (List.nodup_cons.mp hnd).2
    by_cases h : (process_object_terms fetch id true).2
    · have hdisj2 : ∀ j ∈ rest, j ∉ dictKeys (dictInsert acc id (process_object_terms fetch id true).1) := by
        intro j hj
        rw [dictInsert_of_not_mem acc id _ hid]
        simp [dictKeys]
        constructor
        · have := hdisj j (by simp [hj])
          simpa [dictKeys] using this
        · intro hji
          exact (List.nodup_cons.mp hnd).1 (hji ▸ hj)
      simp only [collectLoop, h, if_pos]
      rw [ih _ cnt hrest hdisj2, dictInsert_of_not_mem acc id _ hid]
      simp [List.filterMap_cons, rawEntry, h]
    · have hdisj2 : ∀ j ∈ rest, j ∉ dictKeys acc := fun j hj => hdisj j (by simp [hj])
      simp only [collectLoop, h, if_neg, Bool.false_eq_true, not_false_iff]
      rw [ih _ (cnt + 1) hrest hdisj2]
      simp [List.filterMap_cons, rawEntry, h]

theorem countP_add_countP_not {α : Type} (p : α → Bool) (l : List α) :
    l.countP p + l.countP (fun a => !(p a)) = l.length := by
  induction l with
  | nil => simp
  | cons x xs ih =>
    by_cases h : p x
    · simp [List.countP_cons, h, ih]; omega
    · simp [List.countP_cons, h, ih]
      omega

theorem length_filterMap_rawEntry (fetch : Fetch) (ids : List ObjectID) :
    (ids.filterMap (rawEntry fetch)).length = successCount fetch true ids := by
  induction ids with
  | nil => simp [successCount]
  | cons id rest ih =>
    by_cases h : (process_object_terms fetch id true).2
    · simp [List.filterMap_cons, rawEntry, h, successCount, List.countP_cons] at *
      omega
    · simp [List.filterMap_cons, rawEntry, h, successCount, List.countP_cons] at *
      omega

/-- A row of the weighted edge table: Source, Target, Weight. -/
abbrev EdgeRow := Term × Term × Nat

/-- Lexicographic comparison of character sequences by Unicode code point. -/
def charListLt : List Char → List Char → Bool
  | [], [] => false
  | [], _ :: _ => true
  | _ :: _, [] => false
  | c :: cs, d :: ds =>
    if c.toNat < d.toNat then true
    else if d.toNat < c.toNat then false
    else charListLt cs ds

/-- Lexicographic string comparison used by the pandas groupby key sort
(Python compares strings by code point). -/
def strLe (a b : Term) : Bool := charListLt a.data b.data || a == b

/-- Ordering of (Source, Target) group keys: by Source, then by Target. -/
def pairLe (a b : Term × Term) : Bool :=
  if a.1 = b.1 then strLe a.2 b.2 else strLe a.1 b.1

def insertSorted {α : Type} (le : α → α → Bool) (x : α) : List α → List α
  | [] => [x]
  | y :: ys => if le x y then x :: y :: ys else y :: insertSorted le x ys

/-- A comparison sort of the group keys.  The group keys are pairwise distinct,
so any comparison sort produces the key order pandas emits. -/
def sortKeys {α : Type} (le : α → α → Bool) : List α → List α
  | [] => []
  | x :: xs => insertSorted le x (sortKeys le xs)

/-- The groupby key of a pair row: the ordered (Source, Target) tuple. -/
def pairKey (p : TermPair) : Term × Term := (p.Source, p.Target)

/-- df.groupby(["Source", "Target"]).size().reset_index(name="Weight"):
one row per distinct ordered (Source, Target) key, Weight = number of input
rows with exactly that ordered key, keys emitted in sorted order
(pandas groupby sorts group keys by default). -/
def groupWeights (pairs : List TermPair) : List EdgeRow :=
  let keys := (pairs.map pairKey).dedup
  (sortKeys pairLe keys).map fun k => (k.1, k.2, pairs.countP fun p => decide (pairKey p = k))

/-- The pair rows of pd.DataFrame(terms) when the accumulated list holds
Source/Target dicts (pairs mode stores only such entries). -/
def entryPairs : List Entry → List TermPair
  | [] => []
  | .pair p :: es => p :: entryPairs es
  | .term _ :: es => entryPairs es

/-- The term strings held in a stored dict value (raw mode stores only
term-string entries). -/
def entryTerms : List Entry → List Term
  | [] => []
  | .term t :: es => t :: entryTerms es
  | .pair _ :: es => entryTerms es

/-- The CSV branch of save_results: the content written to save_csv, or none
when no file is written.  save_csv is modelled as the Boolean "a CSV
destination was supplied". -/
def save_results_csv (terms : List Entry) (save_csv : Bool)
    (return_full_list : Bool) : Option (List EdgeRow) :=
  if save_csv && !return_full_list then
    let df := entryPairs terms
    if df.isEmpty then none else some (groupWeights df)
  else none

/-- json.dump of terms_dict followed by json.load: each object id mapped to its
list of raw term strings. -/
def dumpRaw (d : TermsDict) : List (ObjectID × List Term) :=
  d.map fun kv => (kv.1, entryTerms kv.2)

/-- Python runtime errors surfaced by the orchestrators and the offline
deriver: NameError from the unassigned df, TypeError from
os.path.abspath(None), FileNotFoundError from a declined directory, and the
ValueError for a missing object_endpoint. -/
inductive PyError
  | nameError
  | typeError
  | fileNotFound
  | valueError
deriving DecidableEq

/-- create_term_pairs (termsFromRawData.py).  First component: the CSV content
written to processed_terms_file (none when nothing is written).  Second
component: the function result — when no object contributes a pair the local
df is never assigned and the final return statement raises NameError. -/
def create_term_pairs (raw_terms : List (ObjectID × List Term)) :
    Option (List EdgeRow) × Except PyError (List EdgeRow) :=
  let terms_list := raw_terms.flatMap fun kv =>
    if 1 < kv.2.length then pairsOf kv.2 else []
  if 0 < terms_list.length then
    let df := groupWeights terms_list
    (some df, .ok df)
  else (none, .error .nameError)

/-- validate_paths.  The filesystem and the interactive prompt are oracles:
dirExists p models os.path.exists(os.path.dirname(os.path.abspath(p))) and
userCreates p models the y/n answer for that path.  A None filepath reaches
os.path.abspath(None), which raises TypeError. -/
def validate_paths (dirExists : String → Bool) (userCreates : String → Bool) :
    List (Option String) → Except PyError Unit
  | [] => .ok ()
  | filepath :: rest =>
    match filepath with
    | none => .error .typeError
    | some p =>
      if dirExists p then validate_paths dirExists userCreates rest
      else if userCreates p then validate_paths dirExists userCreates rest
      else .error .fileNotFound

/-- Python truthiness of the object_endpoint argument: None and "" are falsy. -/
def optFalsy : Option String → Bool
  | none => true
  | some s => s.isEmpty

/-- The external world of one batch run: the filesystem oracle, the prompt
oracle, the objectIDs array of the collection-endpoint response, and the
per-object fetch oracle. -/
structure RunEnv where
  dirExists : String → Bool
  userCreates : String → Bool
  collectionIDs : List ObjectID
  fetch : Fetch

/-- objectIDs[:limit] guarded by Python truthiness: `if limit:` skips the
slice when limit is None or 0. -/
def applyLimit (limit : Option Nat) (ids : List ObjectID) : List ObjectID :=
  match limit with
  | none => ids
  | some n => if n = 0 then ids else ids.take n

/-- get_terms_from_collection, end to end.  Result: the Python outcome
(exception or returned value) paired with the number of network GET requests
issued during the run (one for the collection listing, one per object fetch). -/
def get_terms_from_collection_run (env : RunEnv) (object_endpoint : Option String)
    (save_file save_csv : Option String) (report_file : String)
    (limit : Option Nat) : Except PyError (TermsDict × Nat) × Nat :=
  match validate_paths env.dirExists env.userCreates [save_file, save_csv, some report_file] with
  | .error e => (.error e, 0)
  | .ok _ =>
    if optFalsy object_endpoint then (.error .valueError, 0)
    else
      let objectIDs := applyLimit limit env.collectionIDs
      if objectIDs.isEmpty then (.ok ([], 0), 1)
      else (.ok (get_terms_from_collection_loop env.fetch objectIDs), 1 + objectIDs.length)

/-- get_terms_pairs, end to end, instrumented like
get_terms_from_collection_run. -/
def get_terms_pairs_run (env : RunEnv) (object_endpoint : Option String)
    (save_file save_csv : Option String) (report_file : String)
    (return_full_list : Bool) (limit : Option Nat) :
    Except PyError (List Entry × Nat) × Nat :=
  match validate_paths env.dirExists env.userCreates [save_file, save_csv, some report_file] with
  | .error e => (.error e, 0)
  | .ok _ =>
    if optFalsy object_endpoint then (.error .valueError, 0)
    else
      let objectIDs := applyLimit limit env.collectionIDs
      if objectIDs.isEmpty then (.ok ([], 0), 1)
      else (.ok (get_terms_pairs_loop env.fetch return_full_list objectIDs), 1 + objectIDs.length)

/-- Unordered-pair equality of two Source/Target rows. -/
def uEqb (p q : TermPair) : Bool :=
  (p.Source == q.Source && p.Target == q.Target) ||
    (p.Source == q.Target && p.Target == q.Source)

/-- No two rows of the list are equal as unordered pairs. -/
def pairwiseUDistinct : List TermPair → Bool
  | [] => true
  | p :: ps => ps.all (fun q => !(uEqb p q)) && pairwiseUDistinct ps

theorem length_combinations2 {α : Type} (l : List α) :
    (combinations2 l).length = l.length.choose 2 := by
  induction l with
  | nil => simp [combinations2]
  | cons x xs ih =>
    simp [combinations2, ih, Nat.choose_succ_succ xs.length 1, Nat.choose_one_right]

theorem mem_combinations2 {α : Type} {l : List α} {p : α × α}
    (h : p ∈ combinations2 l) : p.1 ∈ l ∧ p.2 ∈ l := by
  induction l with
  | nil => simp [combinations2] at h
  | cons x xs ih =>
    simp only [combinations2, List.mem_append, List.mem_map] at h
    rcases h with ⟨y, hy, hxy⟩ | h
    · subst hxy; exact ⟨by simp, by simp [hy]⟩
    · rcases ih h with ⟨h1, h2⟩
      exact ⟨by simp [h1], by simp [h2]⟩

theorem combinations2_fst_ne_snd {α : Type} {l : List α} (hnd : l.Nodup) :
    ∀ p ∈ combinations2 l, p.1 ≠ p.2 := by
  induction l with
  | nil => simp [combinations2]
  | cons x xs ih =>
    intro p hp
    simp only [combinations2, List.mem_append, List.mem_map] at hp
    rcases hp with ⟨y, hy, hxy⟩ | hp
    · subst hxy
      have hxny : x ≠ y := fun hxy2 => (List.nodup_cons.mp hnd).1 (hxy2 ▸ hy)
      exact hxny
    · exact ih (List.nodup_cons.mp hnd).2 p hp

theorem combinations2_pairwise {α : Type} {l : List α} (hnd : l.Nodup) :
    (combinations2 l).Pairwise fun p q =>
      ¬((p.1 = q.1 ∧ p.2 = q.2) ∨ (p.1 = q.2 ∧ p.2 = q.1)) := by
  induction l with
  | nil => simp [combinations2]
  | cons x xs ih =>
    have hx : x ∉ xs := (List.nodup_cons.mp hnd).1
    have hxs : xs.Nodup := (List.nodup_cons.mp hnd).2
    rw [combinations2, List.pairwise_append]
    refine ⟨?_, ih hxs, ?_⟩
    · rw [List.pairwise_map]
      have : xs.Pairwise (· ≠ ·) := hxs
      refine this.imp_of_mem ?_
      intro a b ha hb hab
      simp only []
      rintro (⟨-, h2⟩ | ⟨h1, -⟩)
      · exact hab h2
      · exact hx (h1 ▸ hb)
    · intro p hp q hq
      rcases List.mem_map.mp hp with ⟨y, hy, hxy⟩
      subst hxy
      have hq12 := mem_combinations2 hq
      simp only []
      rintro (⟨h1, -⟩ | ⟨h1, -⟩)
      · exact hx (h1 ▸ hq12.1)
      · exact hx (h1 ▸ hq12.2)

theorem combinations2_ne_nil {α : Type} {l : List α} (h : 2 ≤ l.length) :
    combinations2 l ≠ [] := by
  intro hnil
  have := length_combinations2 l
  rw [hnil] at this
  have hpos : 0 < l.length.choose 2 := Nat.choose_pos h
  simp at this
  omega

theorem pairwiseUDistinct_iff (l : List TermPair) :
    pairwiseUDistinct l = true ↔ l.Pairwise fun p q => uEqb p q = false := by
  induction l with
  | nil => simp [pairwiseUDistinct]
  | cons p ps ih =>
    simp [pairwiseUDistinct, List.pairwise_cons, ih, List.all_eq_true, and_comm]

theorem entryTerms_map_term (ts : List Term) :
    entryTerms (ts.map Entry.term) = ts := by
  induction ts with
  | nil => rfl
  | cons t rest ih => simp [entryTerms, ih]

theorem entryPairs_map_pair (ps : List TermPair) :
    entryPairs (ps.map Entry.pair) = ps := by
  induction ps with
  | nil => rfl
  | cons p rest ih => simp [entryPairs, ih]

theorem entryPairs_append (a b : List Entry) :
    entryPairs (a ++ b) = entryPairs a ++ entryPairs b := by
  induction a with
  | nil => rfl
  | cons e rest ih => cases e <;> simp [entryPairs, ih]

theorem entryPairs_flatMap {α : Type} (f : α → List Entry) (l : List α) :
    entryPairs (l.flatMap f) = l.flatMap fun a => entryPairs (f a) := by
  induction l with
  | nil => rfl
  | cons x xs ih => simp [List.flatMap_cons, entryPairs_append, ih]

theorem mem_insertSorted {α : Type} (le : α → α → Bool) (x a : α) (l : List α) :
    a ∈ insertSorted le x l ↔ a = x ∨ a ∈ l := by
  induction l with
  | nil => simp [insertSorted]
  | cons y ys ih =>
    by_cases h : le x y
    · simp [insertSorted, h]
    · simp [insertSorted, h, ih]
      tauto

theorem mem_sortKeys {α : Type} (le : α → α → Bool) (a : α) (l : List α) :
    a ∈ sortKeys le l ↔ a ∈ l := by
  induction l with
  | nil => simp [sortKeys]
  | cons x xs ih => simp [sortKeys, mem_insertSorted, ih]

theorem flatMap_filterMap {α β γ : Type} (f : α → Option β) (g : β → List γ)
    (l : List α) :
    (l.filterMap f).flatMap g
      = l.flatMap fun a => match f a with | some b => g b | none => [] := by
  induction l with
  | nil => rfl
  | cons x xs ih =>
    cases hfx : f x with
    | none => simp [List.filterMap_cons, hfx, List.flatMap_cons, ih]
    | some b => simp [List.filterMap_cons, hfx, List.flatMap_cons, ih]

/-- C1: in both batch modes every considered object id is classified as exactly
one of success or failure: the number of successfully accumulated objects
(loop iterations that succeed; in raw mode, entries of terms_dict) plus the
returned failure count equals the number of object ids considered. -/
theorem batch_success_plus_failed_eq_total (fetch : Fetch) (b : Bool)
    (ids : List ObjectID) (h : ids.Nodup) :
    successCount fetch b ids + (get_terms_pairs_loop fetch b ids).2 = ids.length ∧
    (get_terms_from_collection_loop fetch ids).1.length
        + (get_terms_from_collection_loop fetch ids).2 = ids.length := by
  have hobj : ∀ c : Bool,
      objFails fetch c = fun id => !((process_object_terms fetch id c).2) :=
    fun c => rfl
  constructor
  · rw [get_terms_pairs_loop, pairsLoop_snd, successCount, hobj b, Nat.zero_add]
    exact countP_add_countP_not _ ids
  · rw [get_terms_from_collection_loop, collectLoop_snd,
      collectLoop_fst fetch ids [] 0 h (fun id _ => by simp [dictKeys])]
    rw [List.nil_append, length_filterMap_rawEntry, successCount, hobj true,
      Nat.zero_add]
    exact countP_add_countP_not _ ids

def wFetch1 : Fetch := fun id =>
  if id = "2" then .error .transport
  else if id = "3" then .ok (.tags [])
  else .ok (.tags [.term "a", .term "b"])

/-- Witness for C1: a three-object batch with one success, one transport
failure and one empty-term failure, in each mode. -/
theorem batch_success_plus_failed_eq_total_witness :
    (["1", "2", "3"] : List ObjectID).Nodup ∧
    (successCount wFetch1 false ["1", "2", "3"]
        + (get_terms_pairs_loop wFetch1 false ["1", "2", "3"]).2
        = (["1", "2", "3"] : List ObjectID).length ∧
      (get_terms_from_collection_loop wFetch1 ["1", "2", "3"]).1.length
        + (get_terms_from_collection_loop wFetch1 ["1", "2", "3"]).2
        = (["1", "2", "3"] : List ObjectID).length) :=
  ⟨by decide, batch_success_plus_failed_eq_total wFetch1 false ["1", "2", "3"] (by decide)⟩

/-- C2: the batch loops are total for every per-object outcome, including every
fetch/decode/schema error value of the oracle: each failing object only
increments the failure count, each successful object appends its entries, the
loop runs over all ids, and the partial accumulated result is returned with the
total failure count. -/
theorem batch_absorbs_object_failures (fetch : Fetch) (b : Bool)
    (ids : List ObjectID) :
    (get_terms_pairs_loop fetch b ids).1 = ids.flatMap (objEntries fetch b) ∧
    (get_terms_pairs_loop fetch b ids).2 = ids.countP (objFails fetch b) ∧
    (get_terms_from_collection_loop fetch ids).2
        = ids.countP (objFails fetch true) := by
  refine ⟨?_, ?_, ?_⟩
  · rw [get_terms_pairs_loop, pairsLoop_fst, List.nil_append]
  · rw [get_terms_pairs_loop, pairsLoop_snd, Nat.zero_add]
  · rw [get_terms_from_collection_loop, collectLoop_snd, Nat.zero_add]

def cexFetch3 : Fetch := fun _ => .ok (.tags [.term "gold"])

/-- C3 is false on the code: an object whose fetch succeeds with exactly one
term yields the implicit None result in pairs mode, contributes zero pairs,
and (contrary to the claim) IS counted toward the failure count, because
process_object_terms maps the falsy result to ([], False). -/
theorem single_term_object_counted_failed_cex :
    get_terms_from_endpoint cexFetch3 "7" false = .ok none ∧
    (get_terms_pairs_loop cexFetch3 false ["7"]).1 = [] ∧
    ¬((get_terms_pairs_loop cexFetch3 false ["7"]).2 = 0) := by
  refine ⟨rfl, rfl, ?_⟩
  decide

/-- C3 (amended): an object whose fetch succeeds with 0 or 1 extracted terms
returns the implicit empty (None) result in pairs mode — not an error —,
contributes zero pairs, and is counted toward the batch failure count. -/
theorem single_term_zero_pairs_counted_failed (fetch : Fetch) (id : ObjectID)
    (tf : TagsField) (terms : List Term) (hf : fetch id = .ok tf)
    (hx : extractTerms tf = .ok terms) (hlen : terms.length ≤ 1) :
    get_terms_from_endpoint fetch id false = .ok none ∧
    process_object_terms fetch id false = ([], false) ∧
    (get_terms_pairs_loop fetch false [id]).1 = [] ∧
    (get_terms_pairs_loop fetch false [id]).2 = 1 := by
  have hno : ¬(1 < terms.length) := by omega
  have h1 : get_terms_from_endpoint fetch id false = .ok none := by
    simp only [get_terms_from_endpoint, hf, hx]
    simp [hno]
  have h2 : process_object_terms fetch id false = ([], false) := by
    simp [process_object_terms, h1]
  refine ⟨h1, h2, ?_, ?_⟩
  · simp [get_terms_pairs_loop, pairsLoop, h2]
  · simp [get_terms_pairs_loop, pairsLoop, h2]

/-- Witness for the amended C3 at a concrete single-term object. -/
theorem single_term_zero_pairs_counted_failed_witness :
    cexFetch3 "9" = .ok (.tags [.term "gold"]) ∧
    extractTerms (.tags [.term "gold"]) = .ok ["gold"] ∧
    (["gold"] : List Term).length ≤ 1 ∧
    (get_terms_from_endpoint cexFetch3 "9" false = .ok none ∧
      process_object_terms cexFetch3 "9" false = ([], false) ∧
      (get_terms_pairs_loop cexFetch3 false ["9"]).1 = [] ∧
      (get_terms_pairs_loop cexFetch3 false ["9"]).2 = 1) :=
  ⟨rfl, rfl, by decide,
    single_term_zero_pairs_counted_failed cexFetch3 "9" (.tags [.term "gold"])
      ["gold"] rfl rfl (by decide)⟩

/-- C4: for pairwise-distinct terms with n at least 2, the pair computation of
get_terms_from_endpoint yields exactly n choose 2 pairs, no self-pairs, no two
rows equal as unordered pairs, and the stable combination order on terms
A, B, C is exactly (A,B), (A,C), (B,C); the computation is a pure function of
the input term order, so identical input yields the identical pair sequence. -/
theorem pairs_mode_all_distinct_pairs (terms : List Term)
    (hnd : terms.Nodup) (_h2 : 2 ≤ terms.length) :
    (pairsOf terms).length = terms.length.choose 2 ∧
    (pairsOf terms).all (fun p => !(p.Source == p.Target)) = true ∧
    pairwiseUDistinct (pairsOf terms) = true ∧
    pairsOf ["A", "B", "C"] = [⟨"A", "B"⟩, ⟨"A", "C"⟩, ⟨"B", "C"⟩] := by
  refine ⟨?_, ?_, ?_, rfl⟩
  · simp [pairsOf, length_combinations2]
  · rw [List.all_eq_true]
    intro p hp
    rcases List.mem_map.mp hp with ⟨q, hq, hqp⟩
    subst hqp
    have := combinations2_fst_ne_snd hnd q hq
    simpa using this
  · rw [pairwiseUDistinct_iff, pairsOf, List.pairwise_map]
    refine (combinations2_pairwise hnd).imp ?_
    intro a b hab
    simp only [uEqb]
    simp only [Bool.or_eq_false_iff, Bool.and_eq_false_iff, beq_eq_false_iff_ne]
    tauto

/-- Witness for C4 at the three-term object of the claim. -/
theorem pairs_mode_all_distinct_pairs_witness :
    (["A", "B", "C"] : List Term).Nodup ∧
    2 ≤ (["A", "B", "C"] : List Term).length ∧
    ((pairsOf ["A", "B", "C"]).length = (["A", "B", "C"] : List Term).length.choose 2 ∧
      (pairsOf ["A", "B", "C"]).all (fun p => !(p.Source == p.Target)) = true ∧
      pairwiseUDistinct (pairsOf ["A", "B", "C"]) = true ∧
      pairsOf ["A", "B", "C"] = [⟨"A", "B"⟩, ⟨"A", "C"⟩, ⟨"B", "C"⟩]) :=
  ⟨by decide, by decide,
    pairs_mode_all_distinct_pairs ["A", "B", "C"] (by decide) (by decide)⟩

/-- C5 is false on the code: save_results groups by the ordered
(Source, Target) tuple with no canonicalization, so the pair recorded as
(B, A) aggregates into a different edge than (A, B) and the edge table for the
pair sequence [(A,B), (B,A)] contains two distinct rows that are equal as
unordered term pairs. -/
theorem aggregation_not_canonicalized_cex :
    groupWeights [⟨"A", "B"⟩, ⟨"B", "A"⟩] = [("A", "B", 1), ("B", "A", 1)] ∧
    uEqb ⟨"A", "B"⟩ ⟨"B", "A"⟩ = true ∧
    ¬(("A", "B", 1) = (("B", "A", 1) : EdgeRow)) := by
  refine ⟨by decide, by decide, by decide⟩

theorem mem_groupWeights_iff (pairs : List TermPair) (s t : Term) (w : Nat) :
    (s, t, w) ∈ groupWeights pairs ↔
      ((s, t) ∈ pairs.map pairKey ∧
        w = pairs.countP fun p => decide (pairKey p = (s, t))) := by
  simp only [groupWeights, List.mem_map, mem_sortKeys, List.mem_dedup]
  constructor
  · rintro ⟨⟨k1, k2⟩, hk, hke⟩
    simp only [Prod.mk.injEq] at hke
    obtain ⟨rfl, rfl, h3⟩ := hke
    exact ⟨hk, h3.symm⟩
  · rintro ⟨hk, hw⟩
    exact ⟨(s, t), hk, by rw [hw]⟩

theorem mem_map_pairKey (pairs : List TermPair) (s t : Term) :
    (s, t) ∈ pairs.map pairKey ↔ (⟨s, t⟩ : TermPair) ∈ pairs := by
  constructor
  · intro h
    rcases List.mem_map.mp h with ⟨p, hp, hpk⟩
    rcases p with ⟨ps, pt⟩
    simp only [pairKey, Prod.mk.injEq] at hpk
    obtain ⟨rfl, rfl⟩ := hpk
    exact hp
  · intro h
    exact List.mem_map.mpr ⟨⟨s, t⟩, h, rfl⟩

/-- C5 (amended): edge aggregation groups by the ordered (Source, Target) key
without canonicalizing member order: the edge table has exactly one row per
distinct ordered key of the pair sequence, its weight the number of pair rows
carrying exactly that ordered key, so (B, A) occurrences aggregate separately
from (A, B) occurrences. -/
theorem aggregation_groups_by_ordered_key (pairs : List TermPair)
    (s t : Term) (w : Nat) :
    (s, t, w) ∈ groupWeights pairs ↔
      ((⟨s, t⟩ : TermPair) ∈ pairs ∧
        w = pairs.countP fun p => decide (pairKey p = (s, t))) := by
  rw [mem_groupWeights_iff, mem_map_pairKey]

/-- The pair rows one dumped object contributes inside create_term_pairs. -/
def derivedPairsAt (fetch : Fetch) (id : ObjectID) : List TermPair :=
  match rawEntry fetch id with
  | some kv => if 1 < (entryTerms kv.2).length then pairsOf (entryTerms kv.2) else []
  | none => []

theorem derivedPairsAt_eq_entryPairs (fetch : Fetch) (id : ObjectID) :
    derivedPairsAt fetch id = entryPairs (objEntries fetch false id) := by
  cases hfd : fetch id with
  | error e =>
    simp [derivedPairsAt, rawEntry, objEntries, process_object_terms,
      get_terms_from_endpoint, hfd, entryPairs]
  | ok data =>
    cases hxt : extractTerms data with
    | error e =>
      simp [derivedPairsAt, rawEntry, objEntries, process_object_terms,
        get_terms_from_endpoint, hfd, hxt, entryPairs]
    | ok terms =>
      match terms with
      | [] =>
        simp [derivedPairsAt, rawEntry, objEntries, process_object_terms,
          get_terms_from_endpoint, hfd, hxt, termDataEntries, entryPairs]
      | [a] =>
        simp [derivedPairsAt, rawEntry, objEntries, process_object_terms,
          get_terms_from_endpoint, hfd, hxt, termDataEntries, entryTerms,
          entryPairs]
      | a :: b :: rest =>
        have h12 : 1 < (a :: b :: rest).length := by simp
        have hne : pairsOf (a :: b :: rest) ≠ [] := by
          simp [pairsOf, combinations2]
        simp [derivedPairsAt, rawEntry, objEntries, process_object_terms,
          get_terms_from_endpoint, hfd, hxt, termDataEntries, h12, hne,
          entryTerms, entryTerms_map_term, entryPairs, entryPairs_map_pair]

/-- C6: on a duplicate-free object-id list, feeding the raw dump of a full-list
batch to the offline deriver writes exactly the same weighted edge table
(including the no-file case) as the CSV branch of a pairs-mode batch run over
the same objects through the same fetch oracle. -/
theorem offline_deriver_matches_pairs_batch (fetch : Fetch)
    (ids : List ObjectID) (h : ids.Nodup) :
    (create_term_pairs (dumpRaw (get_terms_from_collection_loop fetch ids).1)).1
      = save_results_csv (get_terms_pairs_loop fetch false ids).1 true false := by
  have hdict : (get_terms_from_collection_loop fetch ids).1
      = ids.filterMap (rawEntry fetch) := by
    rw [get_terms_from_collection_loop,
      collectLoop_fst fetch ids [] 0 h (fun id _ => by simp [dictKeys]),
      List.nil_append]
  have hterms : ∀ l : List ObjectID,
      (dumpRaw (l.filterMap (rawEntry fetch))).flatMap
          (fun kv => if 1 < kv.2.length then pairsOf kv.2 else [])
        = l.flatMap (derivedPairsAt fetch) := by
    intro l
    induction l with
    | nil => rfl
    | cons id rest ih =>
      cases hre : rawEntry fetch id with
      | none =>
        rw [List.filterMap_cons_none hre, List.flatMap_cons, ih]
        have : derivedPairsAt fetch id = [] := by simp [derivedPairsAt, hre]
        rw [this, List.nil_append]
      | some kv =>
        have hstep : List.filterMap (rawEntry fetch) (id :: rest)
            = kv :: List.filterMap (rawEntry fetch) rest := by
          simp [List.filterMap_cons, hre]
        have hd : derivedPairsAt fetch id
            = if 1 < (entryTerms kv.2).length then pairsOf (entryTerms kv.2) else [] := by
          simp [derivedPairsAt, hre]
        simp only [dumpRaw] at ih ⊢
        rw [hstep, List.map_cons, List.flatMap_cons, List.flatMap_cons, ih]
        simp [hd]
  have hRHS : entryPairs (get_terms_pairs_loop fetch false ids).1
      = ids.flatMap (derivedPairsAt fetch) := by
    rw [get_terms_pairs_loop, pairsLoop_fst, List.nil_append, entryPairs_flatMap]
    rw [show (fun a => entryPairs (objEntries fetch false a)) = derivedPairsAt fetch
      from funext fun a => (derivedPairsAt_eq_entryPairs fetch a).symm]
  have hkey : (dumpRaw (get_terms_from_collection_loop fetch ids).1).flatMap
        (fun kv => if 1 < kv.2.length then pairsOf kv.2 else [])
      = entryPairs (get_terms_pairs_loop fetch false ids).1 := by
    rw [hdict, hterms ids, hRHS]
  simp only [create_term_pairs, save_results_csv, Bool.and_self, Bool.not_false,
    Bool.true_and, if_true]
  rw [hkey]
  cases hL : entryPairs (get_terms_pairs_loop fetch false ids).1 with
  | nil => simp
  | cons p ps => simp

def wFetch6 : Fetch := fun id =>
  if id = "1" then .ok (.tags [.term "a", .term "b", .term "c"])
  else if id = "2" then .ok (.tags [.term "a"])
  else if id = "3" then .error .decode
  else .ok (.tags [.term "b", .term "a"])

/-- Witness for C6 at a four-object batch mixing a three-term object, a
single-term object, a failing object and a two-term object. -/
theorem offline_deriver_matches_pairs_batch_witness :
    (["1", "2", "3", "4"] : List ObjectID).Nodup ∧
    (create_term_pairs
        (dumpRaw (get_terms_from_collection_loop wFetch6 ["1", "2", "3", "4"]).1)).1
      = save_results_csv
          (get_terms_pairs_loop wFetch6 false ["1", "2", "3", "4"]).1 true false :=
  ⟨by decide, offline_deriver_matches_pairs_batch wFetch6 ["1", "2", "3", "4"] (by decide)⟩

/-- RateLimiter state: the configured rate (a float compared directly against
the deque length) and the deque of recorded call timestamps, oldest first.
Timestamps are rationals standing for datetime values in seconds. -/
structure RateLimiterState where
  calls_per_second : ℚ
  calls_made : List ℚ

/-- The while-popleft loop: discard timestamps strictly more than one second
older than now. -/
def pruneOld (now : ℚ) : List ℚ → List ℚ
  | [] => []
  | t0 :: rest => if 1 < now - t0 then pruneOld now rest else t0 :: rest

/-- RateLimiter.wait_if_necessary with real time made explicit: now is the
datetime.now() sample taken on entry, the returned rational is the instant at
which the call is permitted (after time.sleep when sleep_time is positive).
The deque records the pre-sleep now, exactly as the code appends the stale
now after sleeping. -/
def wait_if_necessary (rl : RateLimiterState) (now : ℚ) :
    RateLimiterState × ℚ :=
  let calls := pruneOld now rl.calls_made
  let sleep_time : ℚ :=
    if rl.calls_per_second ≤ (calls.length : ℚ) then
      match calls with
      | t0 :: _ => t0 + 1 - now
      | [] => 0
    else 0
  let permit := if 0 < sleep_time then now + sleep_time else now
  ({ rl with calls_made := calls ++ [now] }, permit)

/-- A sequential driver: each list element is the delay between a permitted
call and the next invocation of wait_if_necessary; the result lists the
instants at which the successive calls were permitted. -/
def runCalls (rl : RateLimiterState) (now : ℚ) : List ℚ → List ℚ
  | [] => []
  | gap :: gaps =>
    let r := wait_if_necessary rl now
    r.2 :: runCalls r.1 (r.2 + gap) gaps

/-- C7 fails on the code: with calls_per_second = 1 and three back-to-back
calls starting at t = 0, the permitted instants are 0, 1, 1 — the second and
third calls are both permitted at t = 1, so two calls complete inside the
trailing one-second window (0, 1] although the limit is 1.  The cause is that
wait_if_necessary records the pre-sleep timestamp: the second call is
permitted at t = 1 but recorded at t = 0 (last two conjuncts), so the third
call sees a stale window and is let through without sleeping. -/
theorem rate_limiter_window_violated :
    runCalls ⟨1, []⟩ 0 [0, 0, 0] = [0, 1, 1] ∧
    ((runCalls ⟨1, []⟩ 0 [0, 0, 0]).countP
        fun t => if 0 < t ∧ t ≤ 1 then true else false) = 2 ∧
    (wait_if_necessary ⟨1, [0]⟩ 0).2 = 1 ∧
    (wait_if_necessary ⟨1, [0]⟩ 0).1.calls_made = [0, 0] := by
  refine ⟨?_, ?_, ?_, ?_⟩ <;>
    norm_num [runCalls, wait_if_necessary, pruneOld, List.countP_cons]

/-- C8: with path validation succeeding, an absent object_endpoint makes both
orchestrators raise ValueError having issued zero network requests: the run
aborts entirely before any network call is attempted. -/
theorem missing_endpoint_aborts_before_network (env : RunEnv)
    (save_file save_csv : Option String) (report_file : String)
    (b : Bool) (limit : Option Nat)
    (hv : validate_paths env.dirExists env.userCreates
      [save_file, save_csv, some report_file] = .ok ()) :
    get_terms_from_collection_run env none save_file save_csv report_file limit
        = (.error .valueError, 0) ∧
    get_terms_pairs_run env none save_file save_csv report_file b limit
        = (.error .valueError, 0) := by
  constructor
  · rw [get_terms_from_collection_run, hv]
    rfl
  · rw [get_terms_pairs_run, hv]
    rfl

def env8 : RunEnv :=
  { dirExists := fun _ => true
    userCreates := fun _ => false
    collectionIDs := ["1", "2"]
    fetch := fun _ => .error .transport }

/-- Witness for C8 at a concrete environment with valid output paths. -/
theorem missing_endpoint_aborts_before_network_witness :
    validate_paths env8.dirExists env8.userCreates
        [some "data/raw/tags.json", some "data/tags.csv", some "report.txt"]
      = .ok () ∧
    (get_terms_from_collection_run env8 none (some "data/raw/tags.json")
        (some "data/tags.csv") "report.txt" none = (.error .valueError, 0) ∧
      get_terms_pairs_run env8 none (some "data/raw/tags.json")
        (some "data/tags.csv") "report.txt" false none
        = (.error .valueError, 0)) :=
  ⟨rfl, missing_endpoint_aborts_before_network env8 (some "data/raw/tags.json")
    (some "data/tags.csv") "report.txt" false none rfl⟩

def collectRawEnv : RunEnv :=
  { dirExists := fun _ => true
    userCreates := fun _ => false
    collectionIDs := ["1"]
    fetch := fun _ => .ok (.tags [.term "a", .term "b"]) }

/-- C9 fails on the code: omitting a destination (save_csv left at its None
default — exactly the invocation collectRawData.py makes) sends None into
os.path.abspath inside validate_paths, which raises TypeError with zero
network calls issued: the run dies during path validation instead of running
the batch and skipping the omitted destination.  The sink itself would have
skipped it — the save_results CSV branch is guarded by the truthiness of
save_csv — so the None default is clearly meant to be supported. -/
theorem omitted_destination_fails_path_validation :
    get_terms_from_collection_run collectRawEnv
        (some "https://collectionapi.metmuseum.org/public/collection/v1/objects")
        (some "data/raw/raw_medieval_art_tags.json") none "report.txt" none
      = (.error .typeError, 0) := rfl

/-- C10: when no dumped object carries two or more terms, create_term_pairs
assigns no df: the final return statement raises NameError and no output file
is written. -/
theorem create_term_pairs_raises_name_error
    (raw : List (ObjectID × List Term))
    (h : raw.all (fun kv => decide (kv.2.length ≤ 1)) = true) :
    (create_term_pairs raw).1 = none ∧
    (create_term_pairs raw).2 = .error .nameError := by
  have hb := List.all_eq_true.mp h
  have hnil : ∀ l : List (ObjectID × List Term),
      (∀ kv ∈ l, kv.2.length ≤ 1) →
      (l.flatMap fun kv => if 1 < kv.2.length then pairsOf kv.2 else []) = [] := by
    intro l
    induction l with
    | nil => intro _; rfl
    | cons kv rest ih =>
      intro hl
      have h1 : ¬(1 < kv.2.length) := by
        have := hl kv (by simp)
        omega
      rw [List.flatMap_cons, if_neg h1, List.nil_append]
      exact ih fun kv2 hkv2 => hl kv2 (by simp [hkv2])
  have hz := hnil raw fun kv hkv => of_decide_eq_true (hb kv hkv)
  constructor <;> simp [create_term_pairs, hz]

/-- Witness for C10: a dump whose objects carry one term and zero terms. -/
theorem create_term_pairs_raises_name_error_witness :
    (([("1", ["a"]), ("2", [])] : List (ObjectID × List Term)).all
        fun kv => decide (kv.2.length ≤ 1)) = true ∧
    ((create_term_pairs [("1", ["a"]), ("2", [])]).1 = none ∧
      (create_term_pairs [("1", ["a"]), ("2", [])]).2 = .error .nameError) :=
  ⟨by decide, create_term_pairs_raises_name_error [("1", ["a"]), ("2", [])] (by decide)⟩
